import Mathlib

/-!
Shallow embedding of the nakadion streaming-consumer core
(src/nakadi/committer.rs and src/nakadi/consumer.rs).

Modelling conventions:
* Wall-clock instants and durations are `Nat` milliseconds; every call to
  `Instant::now()` in the source becomes an explicit `now : Nat` parameter.
* Byte slices (`Vec<u8>`, `&[u8]`) are `List Nat`.
* The `HashMap<(Vec<u8>, Vec<u8>), CommitEntry>` registry is an association
  list whose keys the code keeps unique; iteration order is fixed by the
  list, which is harmless since the source's iteration order is arbitrary.
* The transport (`StreamingClient`) is an oracle: each place the loop could
  call `commit` receives the transport's answer as an input, and the calls
  actually made are collected in the output.
* `FlowId::default()` generates a fresh random id; each iteration's fresh
  id is supplied as an input.
-/

namespace Nakadion

/-- Byte strings (`Vec<u8>` in the source). -/
abbrev Bytes := List Nat

/-- Modelled from the spec: the parsed batch line (the `nakadi::batch`
module is not under src/). Fields mirror the accessors used by
`send_line` and the committer: cursor, event type, partition, optional
info payload, optional events payload. -/
structure BatchLine where
  cursor : Bytes
  event_type : Bytes
  partition : Bytes
  info : Option Bytes
  events : Option Bytes
  deriving Repr, DecidableEq

/-- Modelled from the spec: a batch line is a keep-alive when the events
payload is absent. -/
def BatchLine.is_keep_alive_line (bl : BatchLine) : Bool :=
  bl.events.isNone

/-- Modelled from the spec: a batch is a batch line together with its
reception timestamp and the derived commit deadline (the `nakadi::batch`
module is not under src/; `committer.rs` reads `batch.commit_deadline`). -/
structure Batch where
  batch_line : BatchLine
  received_at : Nat
  commit_deadline : Nat
  deriving Repr, DecidableEq

/-- Commit strategies (`nakadi::CommitStrategy`). -/
inductive CommitStrategy where
  | AllBatches : CommitStrategy
  | EveryNBatches (n : Nat) : CommitStrategy
  | MaxAge : CommitStrategy
  | EveryNSeconds (n : Nat) : CommitStrategy
  deriving Repr, DecidableEq

/-- Result of a commit call (`nakadi::client::CommitStatus`). -/
inductive CommitStatus where
  | AllOffsetsIncreased : CommitStatus
  | NotAllOffsetsIncreased : CommitStatus
  deriving Repr, DecidableEq

/-- Commit errors are opaque to the committer; it only logs them. -/
abbrev CommitError := String

abbrev StreamId := String

/-- One pending commit for a key (`CommitEntry` in committer.rs): the
fire-at instant (called `commit_deadline` in the struct) and the most
recently ack'd batch. -/
structure CommitEntry where
  commit_deadline : Nat
  batch : Batch
  deriving Repr, DecidableEq

/-- Embeds `CommitEntry::new`: the fire-at time is computed from the
strategy at insert time (`now` is the `Instant::now()` of the call). -/
def CommitEntry.new (now : Nat) (batch : Batch) (strategy : CommitStrategy) :
    CommitEntry :=
  let commit_deadline :=
    match strategy with
    | CommitStrategy.AllBatches => now
    | CommitStrategy.EveryNBatches _ => now
    | CommitStrategy.MaxAge => batch.commit_deadline
    | CommitStrategy.EveryNSeconds n =>
        min (now + n * 1000) batch.commit_deadline
  { commit_deadline := commit_deadline, batch := batch }

/-- Embeds `CommitEntry::update`: only the batch is replaced. -/
def CommitEntry.update (e : CommitEntry) (next_batch : Batch) : CommitEntry :=
  { e with batch := next_batch }

/-- Embeds `CommitEntry::is_due`: due when fire-at has passed. -/
def CommitEntry.is_due (e : CommitEntry) (now : Nat) : Bool :=
  decide (e.commit_deadline ≤ now)

/-- Registry key: `(partition.to_vec(), event_type.to_vec())`. -/
abbrev Key := Bytes × Bytes

/-- The commit registry (`HashMap<(Vec<u8>, Vec<u8>), CommitEntry>`). -/
abbrev Registry := List (Key × CommitEntry)

/-- Key of a batch as built in `run_commit_loop`. -/
def batchKey (b : Batch) : Key :=
  (b.batch_line.partition, b.batch_line.event_type)

/-- Association-list lookup (`HashMap::get` / the `entry` probe). -/
def lookupKey (reg : Registry) (k : Key) : Option CommitEntry :=
  match reg with
  | [] => none
  | (k', e) :: rest => if k' = k then some e else lookupKey rest k

/-- Association-list removal (`HashMap::remove`). -/
def removeKey (reg : Registry) (k : Key) : Registry :=
  match reg with
  | [] => []
  | (k', e) :: rest => if k' = k then rest else (k', e) :: removeKey rest k

/-- Embeds the `cursors.entry(key)` match of `run_commit_loop`: a vacant
entry is inserted with `CommitEntry::new`, an occupied one gets
`CommitEntry::update` (batch replaced, fire-at untouched). -/
def handleAck (strategy : CommitStrategy) (now : Nat) (reg : Registry)
    (next_batch : Batch) : Registry :=
  match reg with
  | [] => [(batchKey next_batch, CommitEntry.new now next_batch strategy)]
  | (k, e) :: rest =>
      if k = batchKey next_batch then (k, e.update next_batch) :: rest
      else (k, e) :: handleAck strategy now rest next_batch

/-- One commit request the loop submits to the transport
(`client.commit(stream_id, cursors, flow_id)`). -/
structure CommitCall where
  stream_id : StreamId
  cursors : List Bytes
  flow_id : Nat
  deriving Repr, DecidableEq

/-- Cursors of every entry, in registry order (the
`all_cursors.values().map(|v| v.batch.batch_line.cursor())` of
`flush_all_cursors`). -/
def allCursors (reg : Registry) : List Bytes :=
  reg.map (fun p => p.2.batch.batch_line.cursor)

/-- Embeds `flush_all_cursors`: one unconditional commit call carrying
every registry entry's cursor; the outcome is only logged. -/
def flushAllCall (reg : Registry) (stream_id : StreamId) (flow_id : Nat) :
    CommitCall :=
  { stream_id := stream_id, cursors := allCursors reg, flow_id := flow_id }

/-- Outcome of `flush_due_cursors`: the transport calls made, the
function's `Result<CommitStatus, CommitError>`, and the registry it
leaves behind (the `&mut` map). -/
structure FlushResult where
  calls : List CommitCall
  result : Except CommitError CommitStatus
  registry : Registry
  deriving Repr

/-- Embeds `flush_due_cursors`: collect due entries' cursors and keys; if
any, commit them (on transport error the `?` returns before any removal,
leaving the registry untouched); otherwise report `AllOffsetsIncreased`
without calling the transport; on success remove the flushed keys. -/
def flushDueCursors (reg : Registry) (now : Nat) (stream_id : StreamId)
    (flow_id : Nat) (resp : Except CommitError CommitStatus) : FlushResult :=
  let due := reg.filter (fun p => p.2.is_due now)
  let cursors_to_commit : List Bytes :=
    due.map (fun p => p.2.batch.batch_line.cursor)
  let keys_to_commit : List Key := due.map (fun p => p.1)
  if cursors_to_commit.isEmpty then
    { calls := [], result := Except.ok CommitStatus.AllOffsetsIncreased,
      registry := reg }
  else
    let call : CommitCall :=
      { stream_id := stream_id, cursors := cursors_to_commit,
        flow_id := flow_id }
    match resp with
    | Except.error e =>
        { calls := [call], result := Except.error e, registry := reg }
    | Except.ok status =>
        { calls := [call], result := Except.ok status,
          registry := keys_to_commit.foldl removeKey reg }

/-- Observations one iteration of `run_commit_loop` makes of its
environment: `arrivals` are the batches the workers placed on the ack
channel before this iteration's abort check, `abortNow` is the lifecycle
flag read at the top of the loop, `senderDropped` tells whether an empty
channel reports `Disconnected` rather than `Timeout`, `now` is this
iteration's clock, `flowId` the fresh flow id `FlowId::default()` would
produce, and `resp` the transport's answer were `commit` called. -/
structure LoopIter where
  arrivals : List Batch
  abortNow : Bool
  senderDropped : Bool
  now : Nat
  flowId : Nat
  resp : Except CommitError CommitStatus

/-- State carried across iterations of the commit loop: the registry
(`cursors` in the source) and the ack channel's queued messages. -/
structure LoopState where
  registry : Registry
  queue : List Batch

/-- Calls emitted by one iteration and the successor state (`none` when
the loop breaks and `lifecycle.stopped()` runs). -/
structure StepResult where
  calls : List CommitCall
  next : Option LoopState

/-- Embeds one iteration of `run_commit_loop`: check abort (flush all and
break), else `recv_timeout` (dequeue one batch and fold it into the
registry; on a dropped channel flush all and break; on timeout do
nothing), then `flush_due_cursors`, breaking on a commit error. -/
def commitLoopStep (strategy : CommitStrategy) (stream_id : StreamId)
    (st : LoopState) (inp : LoopIter) : StepResult :=
  let queue := st.queue ++ inp.arrivals
  if inp.abortNow then
    { calls := [flushAllCall st.registry stream_id inp.flowId], next := none }
  else
    match queue with
    | next_batch :: qrest =>
        let reg1 := handleAck strategy inp.now st.registry next_batch
        let fr := flushDueCursors reg1 inp.now stream_id inp.flowId inp.resp
        match fr.result with
        | Except.error _ => { calls := fr.calls, next := none }
        | Except.ok _ =>
            { calls := fr.calls,
              next := some { registry := fr.registry, queue := qrest } }
    | [] =>
        if inp.senderDropped then
          { calls := [flushAllCall st.registry stream_id inp.flowId],
            next := none }
        else
          let fr :=
            flushDueCursors st.registry inp.now stream_id inp.flowId inp.resp
          match fr.result with
          | Except.error _ => { calls := fr.calls, next := none }
          | Except.ok _ =>
              { calls := fr.calls,
                next := some { registry := fr.registry, queue := [] } }

/-- Result of running the commit loop over a finite observation trace:
all transport calls in order, whether the loop broke (after which
`lifecycle.stopped()` runs), and the state just before the breaking
iteration (or after the last one when the trace ran out). -/
structure RunResult where
  calls : List CommitCall
  stopped : Bool
  state : LoopState

/-- Embeds `run_commit_loop` over a finite trace of iterations. -/
def runCommitLoop (strategy : CommitStrategy) (stream_id : StreamId)
    (st : LoopState) (trace : List LoopIter) : RunResult :=
  match trace with
  | [] => { calls := [], stopped := false, state := st }
  | inp :: rest =>
      let sr := commitLoopStep strategy stream_id st inp
      match sr.next with
      | none => { calls := sr.calls, stopped := true, state := st }
      | some st' =>
          let r := runCommitLoop strategy stream_id st' rest
          { calls := sr.calls ++ r.calls, stopped := r.stopped,
            state := r.state }

/-! Consumer side (src/nakadi/consumer.rs). -/

/-- The fixed back-off vector `CONNECT_RETRY_BACKOFF_MS`. -/
def CONNECT_RETRY_BACKOFF_MS : List Nat :=
  [10, 50, 100, 500, 1000, 1000, 1000, 3000, 3000, 3000, 5000, 5000, 5000,
   10000, 10000, 10000, 15000, 15000, 15000]

/-- Sleep delay for a failed attempt:
`*CONNECT_RETRY_BACKOFF_MS.get(attempt).unwrap_or(&30_000)`. -/
def backoffFor (attempt : Nat) : Nat :=
  (CONNECT_RETRY_BACKOFF_MS.get? attempt).getD 30000

/-- Connect errors produced by `connect`. The source builds
`ConnectError::Other(message, flow_id)` where the message carries the
attempt count (and notes the abort when one was requested); the model
keeps those message ingredients as fields. -/
inductive ConnectError where
  | Other (attempts : Nat) (flow_id : Nat) (abortNoted : Bool) : ConnectError
  deriving Repr, DecidableEq

/-- Modelled from the spec: `ConnectError::Other` is permanent-shaped
(`is_permanent` lives in the `nakadi::client` module, which is not under
src/; the spec calls the promoted error permanent). -/
def ConnectError.is_permanent : ConnectError → Bool
  | ConnectError.Other _ _ _ => true

/-- Observations of one iteration of the `connect` retry loop: whether
`client.connect` fails, the clock at the post-failure deadline check, the
lifecycle flag at the post-failure abort check, and the attempt's fresh
flow id. -/
structure ConnectAttempt where
  fails : Bool
  now : Nat
  abortRequested : Bool
  flowId : Nat

/-- Outcome of the connect retry loop on a finite trace: how many
`client.connect` calls were made, the sleeps performed between them, and
the returned value (`none` when the trace ran out mid-loop). -/
structure ConnectOutcome where
  attemptsMade : Nat
  sleeps : List Nat
  result : Option (Except ConnectError Unit)
  deriving Repr

/-- Embeds the loop of `connect`: each pass increments `attempt`, calls
`client.connect`; on failure it picks the back-off delay indexed by the
incremented attempt, returns a permanent-shaped error if the deadline
passed, else returns one if abort was requested, else sleeps and
retries. -/
def connectLoop (deadline : Nat) (attempt : Nat)
    (trace : List ConnectAttempt) : ConnectOutcome :=
  match trace with
  | [] => { attemptsMade := attempt, sleeps := [], result := none }
  | a :: rest =>
      let attempt1 := attempt + 1
      if a.fails then
        let sleep_dur_ms := backoffFor attempt1
        if deadline ≤ a.now then
          { attemptsMade := attempt1, sleeps := [],
            result := some (Except.error
              (ConnectError.Other attempt1 a.flowId false)) }
        else if a.abortRequested then
          { attemptsMade := attempt1, sleeps := [],
            result := some (Except.error
              (ConnectError.Other attempt1 a.flowId true)) }
        else
          let r := connectLoop deadline attempt1 rest
          { attemptsMade := r.attemptsMade,
            sleeps := sleep_dur_ms :: r.sleeps, result := r.result }
      else
        { attemptsMade := attempt1, sleeps := [],
          result := some (Except.ok ()) }

/-- Embeds `connect`: the deadline is `Instant::now() + max_dur` and the
attempt counter starts at 0. -/
def connect (start : Nat) (max_dur : Nat) (trace : List ConnectAttempt) :
    ConnectOutcome :=
  connectLoop (start + max_dur) 0 trace

/-- The `Duration::from_secs(300)` budget `consumer_loop` hands to
`connect`, in milliseconds. -/
def consumerConnectMaxDurMs : Nat := 300 * 1000

/-- Embeds `send_line`: parse the raw line (a parse error propagates); a
keep-alive line (events absent) returns `Ok` and forwards nothing; any
other line is forwarded to the dispatcher as a `Batch`. The first
component records what reached the dispatcher. The batch's commit
deadline is modelled from the spec (reception timestamp plus the
stream-configured maximum batch age); the info payload is only logged. -/
def sendLine (maxBatchAge : Nat) (parsed : Except String BatchLine)
    (received_at : Nat) : Option Batch × Except String Unit :=
  match parsed with
  | Except.error e => (none, Except.error e)
  | Except.ok batch_line =>
      if batch_line.is_keep_alive_line then
        (none, Except.ok ())
      else
        (some { batch_line := batch_line, received_at := received_at,
                commit_deadline := received_at + maxBatchAge },
         Except.ok ())

/-! Concrete fixtures used by witnesses and counterexamples. -/

/-- A batch line carrying events, on partition 20 of event type 10. -/
def blA : BatchLine :=
  { cursor := [1], event_type := [10], partition := [20], info := none,
    events := some [7] }

/-- A second batch line for the same key as `blA` but a later cursor. -/
def blA2 : BatchLine :=
  { cursor := [2], event_type := [10], partition := [20], info := some [9],
    events := some [8] }

/-- A batch line on a different partition. -/
def blB : BatchLine :=
  { cursor := [3], event_type := [10], partition := [21], info := none,
    events := some [7] }

def bA : Batch := { batch_line := blA, received_at := 0, commit_deadline := 500 }

def bA2 : Batch := { batch_line := blA2, received_at := 5, commit_deadline := 505 }

def bB : Batch := { batch_line := blB, received_at := 1, commit_deadline := 501 }

/-- A registry holding one entry for `bA`'s key, firing at 50. -/
def regW : Registry := [(batchKey bA, { commit_deadline := 50, batch := bA })]

/-- Batch on partition `[i]` used by the `EveryNBatches` scenario. -/
def nthBatch (i : Nat) : Batch :=
  { batch_line :=
      { cursor := [i], event_type := [10], partition := [i], info := none,
        events := some [7] },
    received_at := 0, commit_deadline := 1000 }

/-- Objection trace for the `EveryNBatches(4)` scenario: four acks for
distinct keys queued within a 50 ms window, transport always succeeding. -/
def traceN4 : List LoopIter :=
  [ { arrivals := [nthBatch 1, nthBatch 2, nthBatch 3, nthBatch 4],
      abortNow := false, senderDropped := false, now := 0, flowId := 1,
      resp := Except.ok CommitStatus.AllOffsetsIncreased },
    { arrivals := [], abortNow := false, senderDropped := false, now := 10,
      flowId := 2, resp := Except.ok CommitStatus.AllOffsetsIncreased },
    { arrivals := [], abortNow := false, senderDropped := false, now := 20,
      flowId := 3, resp := Except.ok CommitStatus.AllOffsetsIncreased },
    { arrivals := [], abortNow := false, senderDropped := false, now := 30,
      flowId := 4, resp := Except.ok CommitStatus.AllOffsetsIncreased } ]

/-- One iteration in which batch `bA` has already been placed on the ack
channel when the loop's abort check runs and finds the flag set. -/
def abortIter : LoopIter :=
  { arrivals := [bA], abortNow := true, senderDropped := false, now := 0,
    flowId := 9, resp := Except.ok CommitStatus.AllOffsetsIncreased }

/-- One ordinary iteration that receives `bA` with the transport
answering success. -/
def recvIter : LoopIter :=
  { arrivals := [bA], abortNow := false, senderDropped := false, now := 0,
    flowId := 1, resp := Except.ok CommitStatus.AllOffsetsIncreased }

/-! Association-list facts about the registry operations. -/

theorem lookupKey_eq_none (reg : Registry) (k : Key) :
    lookupKey reg k = none ↔ k ∉ reg.map Prod.fst := by
  induction reg with
  | nil => simp [lookupKey]
  | cons p rest ih =>
      obtain ⟨k', e⟩ := p
      by_cases h : k' = k
      · subst h
        simp [lookupKey]
      · simp only [lookupKey, if_neg h, List.map_cons, List.mem_cons, ih]
        constructor
        · intro hnot hmem
          rcases hmem with hmem | hmem
          · exact h hmem.symm
          · exact hnot hmem
        · intro hnot hmem
          exact hnot (Or.inr hmem)

theorem lookupKey_some_mem (reg : Registry) (k : Key) (e : CommitEntry)
    (h : lookupKey reg k = some e) : (k, e) ∈ reg := by
  induction reg with
  | nil => simp [lookupKey] at h
  | cons p rest ih =>
      obtain ⟨k', e'⟩ := p
      by_cases hk : k' = k
      · subst hk
        simp only [lookupKey, eq_self_iff_true, if_true,
          Option.some.injEq] at h
        subst h
        exact List.mem_cons_self _ _
      · simp only [lookupKey, if_neg hk] at h
        exact List.mem_cons_of_mem _ (ih h)

theorem mem_lookupKey_of_nodup (reg : Registry) (k : Key) (e : CommitEntry)
    (hnd : (reg.map Prod.fst).Nodup) (hmem : (k, e) ∈ reg) :
    lookupKey reg k = some e := by
  induction reg with
  | nil => simp at hmem
  | cons p rest ih =>
      obtain ⟨k', e'⟩ := p
      simp only [List.map_cons, List.nodup_cons] at hnd
      rcases List.mem_cons.mp hmem with hmem | hmem
      · injection hmem with hk he
        subst hk
        subst he
        simp [lookupKey]
      · have hk : k' ≠ k := by
          intro hk
          subst hk
          exact hnd.1 (List.mem_map.mpr ⟨(k', e), hmem, rfl⟩)
        simp only [lookupKey, if_neg hk]
        exact ih hnd.2 hmem

theorem lookupKey_handleAck_self (strategy : CommitStrategy) (now : Nat)
    (reg : Registry) (b : Batch) :
    lookupKey (handleAck strategy now reg b) (batchKey b) =
      some (match lookupKey reg (batchKey b) with
            | none => CommitEntry.new now b strategy
            | some e => e.update b) := by
  induction reg with
  | nil => simp [handleAck, lookupKey]
  | cons p rest ih =>
      obtain ⟨k, e⟩ := p
      by_cases h : k = batchKey b
      · subst h
        simp [handleAck, lookupKey]
      · simp [handleAck, lookupKey, h, ih]

theorem lookupKey_handleAck_ne (strategy : CommitStrategy) (now : Nat)
    (reg : Registry) (b : Batch) (k : Key) (hk : k ≠ batchKey b) :
    lookupKey (handleAck strategy now reg b) k = lookupKey reg k := by
  induction reg with
  | nil =>
      have h2 : batchKey b ≠ k := fun h => hk h.symm
      simp [handleAck, lookupKey, h2]
  | cons p rest ih =>
      obtain ⟨k', e⟩ := p
      by_cases h : k' = batchKey b
      · subst h
        have : batchKey b ≠ k := fun h => hk h.symm
        simp [handleAck, lookupKey, this]
      · by_cases h2 : k' = k
        · subst h2
          simp [handleAck, lookupKey, h]
        · simp [handleAck, lookupKey, h, h2, ih]

theorem handleAck_keys (strategy : CommitStrategy) (now : Nat)
    (reg : Registry) (b : Batch) :
    (handleAck strategy now reg b).map Prod.fst =
      if batchKey b ∈ reg.map Prod.fst then reg.map Prod.fst
      else reg.map Prod.fst ++ [batchKey b] := by
  induction reg with
  | nil => simp [handleAck]
  | cons p rest ih =>
      obtain ⟨k, e⟩ := p
      by_cases h : k = batchKey b
      · subst h
        simp [handleAck, CommitEntry.update]
      · have h2 : batchKey b ≠ k := fun hh => h hh.symm
        by_cases hmem : batchKey b ∈ rest.map Prod.fst
        · simp [handleAck, h, ih, hmem, h2]
        · simp [handleAck, h, ih, hmem, h2]

theorem handleAck_nodup (strategy : CommitStrategy) (now : Nat)
    (reg : Registry) (b : Batch)
    (hnd : (reg.map Prod.fst).Nodup) :
    ((handleAck strategy now reg b).map Prod.fst).Nodup := by
  rw [handleAck_keys]
  by_cases hmem : batchKey b ∈ reg.map Prod.fst
  · rw [if_pos hmem]
    exact hnd
  · rw [if_neg hmem, List.nodup_append]
    refine ⟨hnd, List.nodup_singleton _, ?_⟩
    intro a ha hb
    simp only [List.mem_singleton] at hb
    subst hb
    exact hmem ha

theorem lookupKey_removeKey_ne (reg : Registry) (k k' : Key) (h : k ≠ k') :
    lookupKey (removeKey reg k') k = lookupKey reg k := by
  induction reg with
  | nil => simp [removeKey]
  | cons p rest ih =>
      obtain ⟨k0, e⟩ := p
      by_cases h0 : k0 = k'
      · subst h0
        have hne : k0 ≠ k := fun hh => h (hh.symm ▸ rfl)
        simp [removeKey, lookupKey, hne]
      · by_cases h1 : k0 = k
        · subst h1
          simp [removeKey, lookupKey, h0]
        · simp [removeKey, lookupKey, h0, h1, ih]

theorem lookupKey_foldl_removeKey (ks : List Key) (reg : Registry) (k : Key)
    (h : k ∉ ks) :
    lookupKey (ks.foldl removeKey reg) k = lookupKey reg k := by
  induction ks generalizing reg with
  | nil => rfl
  | cons k0 ks ih =>
      simp only [List.foldl_cons]
      have hk0 : k ≠ k0 := by
        intro hh
        exact h (hh ▸ List.mem_cons_self _ _)
      rw [ih _ (fun hm => h (List.mem_cons_of_mem _ hm)),
        lookupKey_removeKey_ne _ _ _ hk0]

theorem foldl_removeKey_cons (ks : List Key) (p : Key × CommitEntry)
    (l : Registry) (h : ∀ k ∈ ks, p.1 ≠ k) :
    ks.foldl removeKey (p :: l) = p :: ks.foldl removeKey l := by
  obtain ⟨pk, pe⟩ := p
  induction ks generalizing l with
  | nil => rfl
  | cons k0 ks ih =>
      simp only [List.foldl_cons]
      have h0 : pk ≠ k0 := h k0 (List.mem_cons_self _ _)
      have hrm : removeKey ((pk, pe) :: l) k0 = (pk, pe) :: removeKey l k0 := by
        simp [removeKey, h0]
      rw [hrm]
      exact ih _ (fun k hk => h k (List.mem_cons_of_mem _ hk))

theorem foldl_removeKey_filter (d : Key × CommitEntry → Bool) (reg : Registry)
    (hnd : (reg.map Prod.fst).Nodup) :
    ((reg.filter d).map Prod.fst).foldl removeKey reg
      = reg.filter (fun p => !(d p)) := by
  induction reg with
  | nil => rfl
  | cons p rest ih =>
      obtain ⟨pk, pe⟩ := p
      simp only [List.map_cons, List.nodup_cons] at hnd
      obtain ⟨hp, hrest⟩ := hnd
      by_cases hd : d (pk, pe)
      · rw [List.filter_cons_of_pos hd]
        simp only [List.map_cons, List.foldl_cons]
        have hrm : removeKey ((pk, pe) :: rest) pk = rest := by
          simp [removeKey]
        rw [hrm, ih hrest, List.filter_cons_of_neg (by simp [hd])]
      · have hdneg : ¬(d (pk, pe) = true) := hd
        rw [List.filter_cons_of_neg hdneg]
        have hks : ∀ k ∈ (rest.filter d).map Prod.fst, pk ≠ k := by
          intro k hk
          obtain ⟨q, hq, rfl⟩ := List.mem_map.mp hk
          intro hcontra
          exact hp (List.mem_map.mpr
            ⟨q, List.mem_of_mem_filter hq, hcontra.symm⟩)
        rw [foldl_removeKey_cons _ _ _ hks, ih hrest,
          List.filter_cons_of_pos (by simp [hd])]

theorem flushDueCursors_registry_ok (reg : Registry) (now : Nat)
    (sid : StreamId) (fid : Nat) (status : CommitStatus) :
    (flushDueCursors reg now sid fid (Except.ok status)).registry
      = ((reg.filter (fun p => p.2.is_due now)).map Prod.fst).foldl
          removeKey reg := by
  cases hdue : reg.filter (fun p => p.2.is_due now) with
  | nil => simp [flushDueCursors, hdue]
  | cons q qs => simp [flushDueCursors, hdue]

theorem flushDueCursors_error_of_due (reg : Registry) (now : Nat)
    (sid : StreamId) (fid : Nat) (e : CommitError) (q : Key × CommitEntry)
    (qs : List (Key × CommitEntry))
    (hdue : reg.filter (fun p => p.2.is_due now) = q :: qs) :
    flushDueCursors reg now sid fid (Except.error e) =
      { calls := [{ stream_id := sid,
                    cursors := (q :: qs).map
                      (fun p => p.2.batch.batch_line.cursor),
                    flow_id := fid }],
        result := Except.error e, registry := reg } := by
  simp [flushDueCursors, hdue]

theorem flushDueCursors_ok_of_due (reg : Registry) (now : Nat)
    (sid : StreamId) (fid : Nat) (status : CommitStatus)
    (q : Key × CommitEntry) (qs : List (Key × CommitEntry))
    (hdue : reg.filter (fun p => p.2.is_due now) = q :: qs) :
    (flushDueCursors reg now sid fid (Except.ok status)).calls =
      [{ stream_id := sid,
         cursors := (q :: qs).map (fun p => p.2.batch.batch_line.cursor),
         flow_id := fid }]
    ∧ (flushDueCursors reg now sid fid (Except.ok status)).result =
        Except.ok status := by
  constructor <;> simp [flushDueCursors, hdue]

theorem commitLoopStep_recv_calls (strategy : CommitStrategy)
    (stream_id : StreamId) (st : LoopState) (inp : LoopIter) (b : Batch)
    (q' : List Batch) (hab : inp.abortNow = false)
    (hq : st.queue ++ inp.arrivals = b :: q') :
    (commitLoopStep strategy stream_id st inp).calls
      = (flushDueCursors (handleAck strategy inp.now st.registry b) inp.now
          stream_id inp.flowId inp.resp).calls := by
  simp only [commitLoopStep, hab, hq, Bool.false_eq_true, if_false]
  split <;> rfl

theorem commitLoopStep_recv_next (strategy : CommitStrategy)
    (stream_id : StreamId) (st : LoopState) (inp : LoopIter) (b : Batch)
    (q' : List Batch) (hab : inp.abortNow = false)
    (hq : st.queue ++ inp.arrivals = b :: q') :
    (commitLoopStep strategy stream_id st inp).next
      = (match (flushDueCursors (handleAck strategy inp.now st.registry b)
            inp.now stream_id inp.flowId inp.resp).result with
         | Except.error _ => none
         | Except.ok _ => some
             { registry := (flushDueCursors
                 (handleAck strategy inp.now st.registry b) inp.now
                 stream_id inp.flowId inp.resp).registry,
               queue := q' }) := by
  simp only [commitLoopStep, hab, hq, Bool.false_eq_true, if_false]
  split <;> rfl

/-- C5: under `EveryNSeconds(n)` the fire-at of a freshly inserted entry
equals min(insert time + n seconds, batch.commit_deadline), so fire-at is
at most ack-time + n seconds and at most the batch's commit deadline. -/
theorem everyNSeconds_fire_at (now : Nat) (batch : Batch) (n : Nat) :
    (CommitEntry.new now batch
        (CommitStrategy.EveryNSeconds n)).commit_deadline
      = min (now + n * 1000) batch.commit_deadline
    ∧ (CommitEntry.new now batch
        (CommitStrategy.EveryNSeconds n)).commit_deadline ≤ now + n * 1000
    ∧ (CommitEntry.new now batch
        (CommitStrategy.EveryNSeconds n)).commit_deadline
        ≤ batch.commit_deadline :=
  ⟨rfl, Nat.min_le_left _ _, Nat.min_le_right _ _⟩

/-- C9: a successfully parsed keep-alive line (events payload absent)
makes `send_line` return Ok while forwarding nothing to the dispatcher,
whatever the info payload holds. -/
theorem keep_alive_not_forwarded (maxBatchAge received_at : Nat)
    (bl : BatchLine) (h : bl.events = none) :
    sendLine maxBatchAge (Except.ok bl) received_at =
      (none, Except.ok ()) := by
  simp [sendLine, BatchLine.is_keep_alive_line, h]

/-- Witness for C9: a keep-alive line carrying an info payload is
discarded. -/
theorem keep_alive_not_forwarded_witness :
    sendLine 100
      (Except.ok
        { cursor := [1], event_type := [10], partition := [20],
          info := some [5], events := none }) 7 =
      (none, Except.ok ()) :=
  keep_alive_not_forwarded 100 7 _ rfl

/-- C10: on a tick where no registry entry is due, `flush_due_cursors`
makes no transport call, returns `AllOffsetsIncreased`, and leaves the
registry unchanged. -/
theorem flush_no_due_frame (reg : Registry) (now : Nat) (sid : StreamId)
    (fid : Nat) (resp : Except CommitError CommitStatus)
    (h : ∀ p ∈ reg, p.2.is_due now = false) :
    flushDueCursors reg now sid fid resp =
      { calls := [], result := Except.ok CommitStatus.AllOffsetsIncreased,
        registry := reg } := by
  have hfilter : reg.filter (fun p => p.2.is_due now) = [] := by
    apply List.filter_eq_nil_iff.mpr
    intro p hp
    simp [h p hp]
  simp [flushDueCursors, hfilter]

/-- Witness for C10: a registry whose single entry fires at 50, polled at
time 10 with the transport poised to answer, is left untouched without a
call. -/
theorem flush_no_due_frame_witness :
    flushDueCursors regW 10 "s" 0
        (Except.ok CommitStatus.AllOffsetsIncreased) =
      { calls := [], result := Except.ok CommitStatus.AllOffsetsIncreased,
        registry := regW } :=
  flush_no_due_frame regW 10 "s" 0 _ (by decide)

/-- C1: handling an ack for key K inserts a fresh entry whose fire-at
comes from the strategy when K is vacant; when K is occupied only the
batch is replaced and the fire-at is untouched; other keys are unchanged,
keys stay unique, and K's entry holds the newly ack'd batch. -/
theorem ack_insert_or_update (strategy : CommitStrategy) (now : Nat)
    (reg : Registry) (b : Batch) (hnd : (reg.map Prod.fst).Nodup) :
    (lookupKey reg (batchKey b) = none →
      lookupKey (handleAck strategy now reg b) (batchKey b)
        = some (CommitEntry.new now b strategy))
    ∧ (∀ e, lookupKey reg (batchKey b) = some e →
        lookupKey (handleAck strategy now reg b) (batchKey b)
          = some (e.update b)
        ∧ (e.update b).commit_deadline = e.commit_deadline)
    ∧ (∀ k, k ≠ batchKey b →
        lookupKey (handleAck strategy now reg b) k = lookupKey reg k)
    ∧ ((handleAck strategy now reg b).map Prod.fst).Nodup
    ∧ (lookupKey (handleAck strategy now reg b) (batchKey b)).map
        CommitEntry.batch = some b := by
  refine ⟨?_, ?_, ?_, handleAck_nodup _ _ _ _ hnd, ?_⟩
  · intro h
    rw [lookupKey_handleAck_self, h]
  · intro e h
    rw [lookupKey_handleAck_self, h]
    exact ⟨rfl, rfl⟩
  · exact fun k hk => lookupKey_handleAck_ne _ _ _ _ _ hk
  · rw [lookupKey_handleAck_self]
    cases h : lookupKey reg (batchKey b) with
    | none => simp [CommitEntry.new]
    | some e => simp [CommitEntry.update]

/-- Witness for C1: an ack for an already registered key replaces the
batch and keeps the fire-at, on the concrete registry `regW`. -/
theorem ack_insert_or_update_witness :
    (regW.map Prod.fst).Nodup
    ∧ (lookupKey (handleAck CommitStrategy.AllBatches 7 regW bA2)
        (batchKey bA2)).map CommitEntry.batch = some bA2 :=
  ⟨by decide,
   (ack_insert_or_update CommitStrategy.AllBatches 7 regW bA2
      (by decide)).2.2.2.2⟩

/-- C2: when the loop's abort check fires (or the ack channel is found
closed), it makes exactly one flush-all commit call carrying every entry
then in the registry under that iteration's fresh flow id, and only then
breaks so the lifecycle reaches stopped. -/
theorem abort_flushes_all (strategy : CommitStrategy) (stream_id : StreamId)
    (st : LoopState) (inp : LoopIter) (rest : List LoopIter)
    (h : inp.abortNow = true) :
    commitLoopStep strategy stream_id st inp =
      { calls := [flushAllCall st.registry stream_id inp.flowId],
        next := none }
    ∧ (flushAllCall st.registry stream_id inp.flowId).cursors
        = allCursors st.registry
    ∧ runCommitLoop strategy stream_id st (inp :: rest) =
        { calls := [flushAllCall st.registry stream_id inp.flowId],
          stopped := true, state := st }
    ∧ (∀ inp2 : LoopIter, inp2.abortNow = false →
        st.queue ++ inp2.arrivals = [] → inp2.senderDropped = true →
        commitLoopStep strategy stream_id st inp2 =
          { calls := [flushAllCall st.registry stream_id inp2.flowId],
            next := none }) := by
  refine ⟨?_, rfl, ?_, ?_⟩
  · simp [commitLoopStep, h]
  · simp [runCommitLoop, commitLoopStep, h]
  · intro inp2 h1 h2 h3
    simp [commitLoopStep, h1, h2, h3]

/-- Witness for C2: the abort iteration on a loaded registry emits the
flush-all call and stops. -/
theorem abort_flushes_all_witness :
    abortIter.abortNow = true
    ∧ commitLoopStep CommitStrategy.AllBatches "s"
        { registry := regW, queue := [] } abortIter =
      { calls := [flushAllCall regW "s" 9], next := none } :=
  ⟨rfl,
   (abort_flushes_all CommitStrategy.AllBatches "s"
      { registry := regW, queue := [] } abortIter [] rfl).1⟩

/-- C4: a due-flush answered with a success status (either variant)
removes exactly the due, flushed keys from the registry; a transport
error is propagated with the registry left unchanged, and it makes the
commit loop break. -/
theorem flush_success_removes_error_stops (reg : Registry) (now : Nat)
    (sid : StreamId) (fid : Nat) (hnd : (reg.map Prod.fst).Nodup) :
    (∀ status, (flushDueCursors reg now sid fid (Except.ok status)).registry
        = reg.filter (fun p => !(p.2.is_due now))
      ∧ (∀ k, k ∈ reg.map Prod.fst →
          k ∉ (flushDueCursors reg now sid fid
              (Except.ok status)).registry.map Prod.fst →
          ∃ e, (k, e) ∈ reg ∧ e.is_due now = true))
    ∧ (∀ e q qs, reg.filter (fun p => p.2.is_due now) = q :: qs →
        (flushDueCursors reg now sid fid (Except.error e)).registry = reg
        ∧ (flushDueCursors reg now sid fid (Except.error e)).result
            = Except.error e)
    ∧ (∀ strategy stream_id (st : LoopState) (inp : LoopIter) e,
        st.registry = reg → inp.now = now → inp.resp = Except.error e →
        inp.abortNow = false → st.queue ++ inp.arrivals = [] →
        inp.senderDropped = false →
        reg.filter (fun p => p.2.is_due now) ≠ [] →
        (commitLoopStep strategy stream_id st inp).next = none) := by
  refine ⟨?_, ?_, ?_⟩
  · intro status
    have hreg : (flushDueCursors reg now sid fid
        (Except.ok status)).registry
          = reg.filter (fun p => !(p.2.is_due now)) := by
      rw [flushDueCursors_registry_ok, foldl_removeKey_filter _ _ hnd]
    refine ⟨hreg, ?_⟩
    intro k hk hnotk
    obtain ⟨p, hp, rfl⟩ := List.mem_map.mp hk
    refine ⟨p.2, by simpa using hp, ?_⟩
    by_contra hdue
    apply hnotk
    rw [hreg]
    refine List.mem_map.mpr ⟨p, List.mem_filter.mpr ⟨hp, ?_⟩, rfl⟩
    simp [Bool.eq_false_iff.mpr hdue]
  · intro e q qs hdue
    rw [flushDueCursors_error_of_due reg now sid fid e q qs hdue]
    exact ⟨rfl, rfl⟩
  · intro strategy stream_id st inp e hst hnow hresp hab hq hsd hne
    obtain ⟨q, qs, hdue⟩ := List.exists_cons_of_ne_nil hne
    have herr := flushDueCursors_error_of_due st.registry inp.now stream_id
      inp.flowId e q qs (by rw [hst, hnow]; exact hdue)
    simp [commitLoopStep, hab, hq, hsd, hresp, herr]

/-- Witness for C4: on `regW` at time 60 the single (due) entry is
removed on success; on error the registry survives untouched. -/
theorem flush_success_removes_error_stops_witness :
    (regW.map Prod.fst).Nodup
    ∧ ((flushDueCursors regW 60 "s" 0
        (Except.ok CommitStatus.NotAllOffsetsIncreased)).registry
      = regW.filter (fun p => !(p.2.is_due 60))) :=
  ⟨by decide,
   ((flush_success_removes_error_stops regW 60 "s" 0 (by decide)).1
      CommitStatus.NotAllOffsetsIncreased).1⟩

/-- C8: a failed attempt sleeps for the back-off vector entry indexed by
the attempt number, 30000 ms beyond the vector's end; once the budget
deadline has passed a failed attempt returns a permanent-shaped error
carrying the attempt count instead of retrying; the budget handed over by
`consumer_loop` is 300 s. -/
theorem connect_retry_bounded (deadline attempt : Nat) (a : ConnectAttempt)
    (rest : List ConnectAttempt) (hfail : a.fails = true) :
    (∀ m, CONNECT_RETRY_BACKOFF_MS.length ≤ m → backoffFor m = 30000)
    ∧ (a.now < deadline → a.abortRequested = false →
        connectLoop deadline attempt (a :: rest) =
          { attemptsMade :=
              (connectLoop deadline (attempt + 1) rest).attemptsMade,
            sleeps := backoffFor (attempt + 1)
              :: (connectLoop deadline (attempt + 1) rest).sleeps,
            result := (connectLoop deadline (attempt + 1) rest).result })
    ∧ (deadline ≤ a.now →
        connectLoop deadline attempt (a :: rest) =
          { attemptsMade := attempt + 1, sleeps := [],
            result := some (Except.error
              (ConnectError.Other (attempt + 1) a.flowId false)) }
        ∧ (ConnectError.Other (attempt + 1) a.flowId false).is_permanent
            = true)
    ∧ connect a.now consumerConnectMaxDurMs rest
        = connectLoop (a.now + 300 * 1000) 0 rest := by
  refine ⟨?_, ?_, ?_, rfl⟩
  · intro m hm
    simp [backoffFor, List.getElem?_eq_none hm]
  · intro h1 h2
    simp [connectLoop, hfail, Nat.not_le.mpr h1, h2]
  · intro h
    exact ⟨by simp [connectLoop, hfail, h], rfl⟩

/-- Witness for C8: a first attempt failing at the very deadline instant
stops with the permanent-shaped error, and the plateau value applies past
the vector. -/
theorem connect_retry_bounded_witness :
    backoffFor 19 = 30000
    ∧ connectLoop 300000 0
        [{ fails := true, now := 300000, abortRequested := false,
           flowId := 5 }] =
      { attemptsMade := 1, sleeps := [],
        result := some (Except.error (ConnectError.Other 1 5 false)) } :=
  ⟨(connect_retry_bounded 300000 0
      { fails := true, now := 300000, abortRequested := false, flowId := 5 }
      [] rfl).1 19 (by decide),
   ((connect_retry_bounded 300000 0
      { fails := true, now := 300000, abortRequested := false, flowId := 5 }
      [] rfl).2.2.1 (by decide)).1⟩

/-- C6 counterexample: the first attempt fails at t = 0 with abort not
yet requested; abort is requested during the back-off sleep (so the next
post-failure check would see it), yet the routine performs a second
`client.connect` call — and since that call succeeds, it returns the
connection rather than a permanent-shaped error. -/
theorem abort_during_backoff_counterexample :
    (connectLoop 300000 0
        [{ fails := true, now := 0, abortRequested := false, flowId := 1 },
         { fails := false, now := 20, abortRequested := true,
           flowId := 2 }]).attemptsMade = 2
    ∧ (connectLoop 300000 0
        [{ fails := true, now := 0, abortRequested := false, flowId := 1 },
         { fails := false, now := 20, abortRequested := true,
           flowId := 2 }]).result = some (Except.ok ())
    ∧ (connectLoop 300000 0
        [{ fails := true, now := 0, abortRequested := false, flowId := 1 },
         { fails := false, now := 20, abortRequested := true,
           flowId := 2 }]).sleeps = [50] :=
  ⟨rfl, rfl, rfl⟩

/-- C6 amended: an abort requested during back-off is only observed after
the next connect attempt has been made and failed; at that check the
routine returns a permanent-shaped error carrying the attempt count and
the flow id, consuming no further attempts. -/
theorem abort_during_backoff_amended (deadline attempt : Nat)
    (a : ConnectAttempt) (rest : List ConnectAttempt)
    (hfail : a.fails = true) (hdl : a.now < deadline)
    (hab : a.abortRequested = true) :
    connectLoop deadline attempt (a :: rest) =
      { attemptsMade := attempt + 1, sleeps := [],
        result := some (Except.error
          (ConnectError.Other (attempt + 1) a.flowId true)) }
    ∧ (ConnectError.Other (attempt + 1) a.flowId true).is_permanent
        = true := by
  constructor
  · simp [connectLoop, hfail, Nat.not_le.mpr hdl, hab]
  · rfl

/-- Witness for C6: the attempt after the abort fails, and the loop stops
with the permanent-shaped error naming one attempt and flow id 3. -/
theorem abort_during_backoff_amended_witness :
    connectLoop 300000 0
        [{ fails := true, now := 40, abortRequested := true, flowId := 3 }] =
      { attemptsMade := 1, sleeps := [],
        result := some (Except.error (ConnectError.Other 1 3 true)) }
    ∧ (ConnectError.Other 1 3 true).is_permanent = true :=
  abort_during_backoff_amended 300000 0
    { fails := true, now := 40, abortRequested := true, flowId := 3 }
    [] rfl (by decide) rfl

theorem flushDueCursors_registry_error (reg : Registry) (now : Nat)
    (sid : StreamId) (fid : Nat) (e : CommitError) :
    (flushDueCursors reg now sid fid (Except.error e)).registry = reg := by
  cases hdue : reg.filter (fun p => p.2.is_due now) with
  | nil => simp [flushDueCursors, hdue]
  | cons q qs => simp [flushDueCursors, hdue]

/-- C3 counterexample: under `EveryNBatches(4)`, four acks for distinct
keys arriving within a 50 ms window produce four commit calls of one
cursor each — there is no single flush carrying all four cursors, because
the source gives `EveryNBatches` entries a fire-at of the insert time and
has no registry-size threshold. -/
theorem everyNBatches_counterexample :
    (runCommitLoop (CommitStrategy.EveryNBatches 4) "s"
        { registry := [], queue := [] } traceN4).calls.map
        (fun c => c.cursors)
      = [[[1]], [[2]], [[3]], [[4]]]
    ∧ ¬ (∃ c ∈ (runCommitLoop (CommitStrategy.EveryNBatches 4) "s"
        { registry := [], queue := [] } traceN4).calls,
        c.cursors.length = 4) := by
  decide

/-- C3 amended: an entry is due exactly when its fire-at is at or before
now; under `EveryNBatches(n)` a fresh entry's fire-at is the insert time
itself, so it is due at once regardless of how many entries the registry
holds, and an ack for a vacant key is flushed in the very iteration that
receives it — one single-cursor commit call per ack, not one n-cursor
call. -/
theorem everyNBatches_amended (n t now : Nat) (b : Batch) (e : CommitEntry)
    (stream_id : StreamId) (st : LoopState) (inp : LoopIter)
    (q' : List Batch) (hab : inp.abortNow = false)
    (hq : st.queue ++ inp.arrivals = b :: q')
    (hvac : lookupKey st.registry (batchKey b) = none) :
    (e.is_due t = true ↔ e.commit_deadline ≤ t)
    ∧ (CommitEntry.new now b
        (CommitStrategy.EveryNBatches n)).commit_deadline = now
    ∧ ∃ c, (commitLoopStep (CommitStrategy.EveryNBatches n) stream_id st
          inp).calls = [c]
        ∧ b.batch_line.cursor ∈ c.cursors := by
  refine ⟨by simp [CommitEntry.is_due], rfl, ?_⟩
  have hself : lookupKey
      (handleAck (CommitStrategy.EveryNBatches n) inp.now st.registry b)
      (batchKey b)
      = some (CommitEntry.new inp.now b (CommitStrategy.EveryNBatches n)) := by
    rw [lookupKey_handleAck_self, hvac]
  have hmem := lookupKey_some_mem _ _ _ hself
  have hmemf : (batchKey b,
      CommitEntry.new inp.now b (CommitStrategy.EveryNBatches n))
      ∈ (handleAck (CommitStrategy.EveryNBatches n) inp.now
          st.registry b).filter (fun p => p.2.is_due inp.now) :=
    List.mem_filter.mpr ⟨hmem, by simp [CommitEntry.new, CommitEntry.is_due]⟩
  obtain ⟨q, qs, hdue⟩ :=
    List.exists_cons_of_ne_nil (List.ne_nil_of_mem hmemf)
  have hcur : b.batch_line.cursor
      ∈ (q :: qs).map (fun p => p.2.batch.batch_line.cursor) := by
    rw [← hdue]
    exact List.mem_map.mpr ⟨_, hmemf, by simp [CommitEntry.new]⟩
  rw [commitLoopStep_recv_calls _ _ _ _ _ _ hab hq]
  cases hresp : inp.resp with
  | error e1 =>
      rw [flushDueCursors_error_of_due _ _ _ _ _ _ _ hdue]
      exact ⟨_, rfl, hcur⟩
  | ok status =>
      rw [(flushDueCursors_ok_of_due _ _ _ _ status _ _ hdue).1]
      exact ⟨_, rfl, hcur⟩

/-- Witness for the amended C3 at the concrete receiving iteration. -/
theorem everyNBatches_amended_witness :
    ∃ c, (commitLoopStep (CommitStrategy.EveryNBatches 4) "s"
        { registry := [], queue := [] } recvIter).calls = [c]
      ∧ bA.batch_line.cursor ∈ c.cursors :=
  (everyNBatches_amended 4 0 0 bA { commit_deadline := 0, batch := bA }
    "s" { registry := [], queue := [] } recvIter [] rfl rfl rfl).2.2

/-- C7 counterexample: batch `bA` is already on the ack channel when the
loop's abort check runs, so the batch was accepted before abort was
observed; the shutdown flush nevertheless commits an empty cursor list
and `bA`'s cursor reaches no commit call before the loop stops. -/
theorem ack_before_abort_counterexample :
    (runCommitLoop CommitStrategy.AllBatches "s"
        { registry := [], queue := [] } [abortIter]).calls
      = [{ stream_id := "s", cursors := [], flow_id := 9 }]
    ∧ (runCommitLoop CommitStrategy.AllBatches "s"
        { registry := [], queue := [] } [abortIter]).stopped = true
    ∧ ∀ c ∈ (runCommitLoop CommitStrategy.AllBatches "s"
        { registry := [], queue := [] } [abortIter]).calls,
        bA.batch_line.cursor ∉ c.cursors := by
  decide

/-- C7 amended: a batch the loop actually receives from the ack channel
is incorporated at once — its key's registry entry holds it, and within
the same iteration its cursor is either submitted in that iteration's
commit call or still recorded in the registry the iteration leaves
behind; batches still queued when abort is observed are dropped (see the
counterexample). -/
theorem ack_received_incorporated (strategy : CommitStrategy)
    (stream_id : StreamId) (st : LoopState) (inp : LoopIter) (b : Batch)
    (q' : List Batch) (hnd : (st.registry.map Prod.fst).Nodup)
    (hab : inp.abortNow = false)
    (hq : st.queue ++ inp.arrivals = b :: q') :
    ((lookupKey (handleAck strategy inp.now st.registry b)
        (batchKey b)).map CommitEntry.batch = some b)
    ∧ ((commitLoopStep strategy stream_id st inp).calls
        = (flushDueCursors (handleAck strategy inp.now st.registry b)
            inp.now stream_id inp.flowId inp.resp).calls)
    ∧ ((∃ c ∈ (commitLoopStep strategy stream_id st inp).calls,
          b.batch_line.cursor ∈ c.cursors)
       ∨ (lookupKey (flushDueCursors (handleAck strategy inp.now
            st.registry b) inp.now stream_id inp.flowId inp.resp).registry
            (batchKey b)).map CommitEntry.batch = some b) := by
  have key_entry : ∃ E, lookupKey
      (handleAck strategy inp.now st.registry b) (batchKey b) = some E
      ∧ E.batch = b := by
    rw [lookupKey_handleAck_self]
    cases hlk : lookupKey st.registry (batchKey b) with
    | none => exact ⟨_, rfl, rfl⟩
    | some e0 => exact ⟨_, rfl, rfl⟩
  obtain ⟨E, hE, hEb⟩ := key_entry
  refine ⟨by rw [hE]; simp [hEb],
    commitLoopStep_recv_calls _ _ _ _ _ _ hab hq, ?_⟩
  by_cases hdueE : E.is_due inp.now
  · left
    have hmem := lookupKey_some_mem _ _ _ hE
    have hmemf : (batchKey b, E)
        ∈ (handleAck strategy inp.now st.registry b).filter
            (fun p => p.2.is_due inp.now) :=
      List.mem_filter.mpr ⟨hmem, hdueE⟩
    obtain ⟨q, qs, hdue⟩ :=
      List.exists_cons_of_ne_nil (List.ne_nil_of_mem hmemf)
    have hcur : b.batch_line.cursor
        ∈ (q :: qs).map (fun p => p.2.batch.batch_line.cursor) := by
      rw [← hdue]
      exact List.mem_map.mpr ⟨_, hmemf, by rw [hEb]⟩
    rw [commitLoopStep_recv_calls _ _ _ _ _ _ hab hq]
    cases hresp : inp.resp with
    | error e1 =>
        rw [flushDueCursors_error_of_due _ _ _ _ _ _ _ hdue]
        exact ⟨_, List.mem_singleton_self _, hcur⟩
    | ok status =>
        rw [(flushDueCursors_ok_of_due _ _ _ _ status _ _ hdue).1]
        exact ⟨_, List.mem_singleton_self _, hcur⟩
  · right
    cases hresp : inp.resp with
    | error e1 =>
        rw [flushDueCursors_registry_error, hE]
        simp [hEb]
    | ok status =>
        rw [flushDueCursors_registry_ok]
        have hnd1 : ((handleAck strategy inp.now
            st.registry b).map Prod.fst).Nodup :=
          handleAck_nodup _ _ _ _ hnd
        have hnotin : batchKey b
            ∉ ((handleAck strategy inp.now st.registry b).filter
                (fun p => p.2.is_due inp.now)).map Prod.fst := by
          intro hcontra
          obtain ⟨p, hp, hpk⟩ := List.mem_map.mp hcontra
          have hpmem := List.mem_filter.mp hp
          have hlkp : lookupKey (handleAck strategy inp.now st.registry b)
              p.1 = some p.2 :=
            mem_lookupKey_of_nodup _ _ _ hnd1 (by simpa using hpmem.1)
          rw [hpk] at hlkp
          have hpe : p.2 = E := by
            have h2 := hlkp.symm.trans hE
            injection h2
          exact hdueE (hpe ▸ hpmem.2)
        rw [lookupKey_foldl_removeKey _ _ _ hnotin, hE]
        simp [hEb]

/-- Witness for the amended C7: receiving `bA` on an empty registry
records it under its key. -/
theorem ack_received_incorporated_witness :
    (lookupKey (handleAck CommitStrategy.AllBatches 0 [] bA)
        (batchKey bA)).map CommitEntry.batch = some bA :=
  (ack_received_incorporated CommitStrategy.AllBatches "s"
    { registry := [], queue := [] } recvIter bA [] (by decide) rfl rfl).1

end Nakadion
